import Mathlib

/-!
Verification of the ELF/DWARF type-system walker and live memory inspector
(`scripts/inspect_state.py`) of the Asset-Tracker-Template repository.

The Python source parses DWARF debug-info entries (DIEs) into `TypeInfo`
objects, locates per-module symbols, and renders live memory values.  Python
objects are mutable and compared by identity; we embed them with an explicit
arena (`heap : List TypeInfoV`) where a node id (`Nat` index) plays the role
of a Python object identity, and the in-place mutation during construction is
modelled as back-patching the allocated slot.  The parser's recursion is not
structural on the DIE graph (it can be cyclic), so it takes explicit fuel;
all theorems instantiate the fuel with a sufficient concrete amount.
-/

namespace StateInspector

/-- DWARF tags used by `inspect_state.py` (`DW_TAG_...`).  Tags the script
does not inspect are collapsed into `otherTag`. -/
inductive Tag where
  | structureType
  | pointerType
  | arrayType
  | enumerationType
  | constType
  | volatileType
  | typedef
  | baseType
  | member
  | subrangeType
  | enumerator
  | subprogram
  | variableTag
  | compileUnit
  | otherTag
deriving DecidableEq

/-- A `DW_AT_type` (or similar) reference attribute.  `relative = true`
models the `DW_FORM_ref1/2/4/8/udata` forms (value is relative to the start
of the referencing DIE's compilation unit); `relative = false` models
`DW_FORM_ref_addr`/`DW_FORM_ref_sig8` and the fallback case (value is a
global offset). -/
structure RefAttr where
  relative : Bool
  value : Nat
deriving DecidableEq

/-- A DWARF debugging information entry, flattened: children are recorded by
their global offsets and resolved through the global DIE table, mirroring
pyelftools' offset-addressed DIE graph. `cuOff` is the offset of the
containing compilation unit (pyelftools' `die.cu.cu_offset`). -/
structure DIE where
  offset : Nat
  cuOff : Nat
  tag : Tag
  name : Option String := none
  byteSize : Option Nat := none
  typeRef : Option RefAttr := none
  memberLoc : Option Nat := none
  upperBound : Option Nat := none
  constValue : Option Int := none
  location : Option (List Nat) := none
  children : List Nat := []
deriving DecidableEq

/-- A compilation unit: its top DIE's full source path and its DIEs in
`iter_DIEs` (depth-first) order. -/
structure CU where
  path : String
  dies : List DIE
deriving DecidableEq

/-- The DWARF info of one ELF: the list of compilation units. -/
structure Dwarf where
  cus : List CU
deriving DecidableEq

/-- A member of a resolved structure type (`StructMember` in the source):
name, byte offset, and the node id of the member's type. -/
structure MemberV where
  name : String
  off : Nat
  tid : Nat
deriving DecidableEq

/-- The `TypeInfo` variants of the source (`PrimitiveType`, `StructType`,
`EnumType`, `PointerType`, `ArrayType`).  Node references (`Nat`) are arena
ids standing for Python object identities. -/
inductive TypeInfoV where
  | prim (name : String) (size : Nat)
  | struct (name : String) (size : Nat) (members : List MemberV)
  | enumT (name : String) (size : Nat) (mapping : List (Int × String))
  | ptr (name : String) (size : Nat) (target : Option Nat)
  | arr (name : String) (size : Nat) (element : Option Nat) (count : Nat)
deriving DecidableEq

/-- The declared name of a node (`type_info.name`). -/
def nodeName : TypeInfoV → String
  | .prim n _ => n
  | .struct n _ _ => n
  | .enumT n _ _ => n
  | .ptr n _ _ => n
  | .arr n _ _ _ => n

/-- The declared size of a node (`type_info.size`). -/
def nodeSize : TypeInfoV → Nat
  | .prim _ s => s
  | .struct _ s _ => s
  | .enumT _ s _ => s
  | .ptr _ s _ => s
  | .arr _ s _ _ => s

/-- The state of one `TypeParser`: the arena of constructed nodes and the
offset-keyed cache (`self.cache : Dict[int, TypeInfo]`, here offset to node
id). -/
structure PState where
  heap : List TypeInfoV := []
  cache : List (Nat × Nat) := []
deriving DecidableEq

/-- Errors a resolution can raise: a referenced DIE offset that is not in
the debug info (`ValueError` from `_get_die_at_offset`), a missing required
attribute (`AttributeError` on `DW_AT_const_value`), or fuel exhaustion
(not a Python behaviour; theorems always supply enough fuel). -/
inductive PErr where
  | dieNotFound (off : Nat)
  | attrMissing
  | noFuel
deriving DecidableEq

/-- Cache lookup (`die.offset in self.cache`). -/
def lookupCache : List (Nat × Nat) → Nat → Option Nat
  | [], _ => none
  | (k, v) :: rest, off => if off = k then some v else lookupCache rest off

/-- Allocate a node in the arena: models constructing a Python object; the
returned id is its identity. -/
def alloc (st : PState) (v : TypeInfoV) : Nat × PState :=
  (st.heap.length, { st with heap := st.heap ++ [v] })

/-- Register a node in the offset cache (`self.cache[die.offset] = node`). -/
def register (st : PState) (off id : Nat) : PState :=
  { st with cache := (off, id) :: st.cache }

/-- Back-patch a node in place: models mutating the already-constructed
Python object (appending members, setting `target_type`, ...). -/
def setNode (st : PState) (id : Nat) (v : TypeInfoV) : PState :=
  { st with heap := st.heap.set id v }

/-- Arena read. -/
def heapGet (h : List TypeInfoV) (i : Nat) : Option TypeInfoV :=
  h.get? i

/-- `_decode_name(attr) or "<anon>"`: a missing or empty name attribute
falls back to the `"<anon>"` sentinel (Python's `or` treats `""` as falsy). -/
def anonName : Option String → String
  | none => "<anon>"
  | some s => if s = "" then "<anon>" else s

/-- Resolve a reference attribute to a global offset
(`TypeParser._get_die_from_attribute`): CU-relative forms add the
referencing DIE's `cu_offset`. -/
def resolveRef (die : DIE) (r : RefAttr) : Nat :=
  if r.relative then r.value + die.cuOff else r.value

/-- Search one CU's DIE list for a global offset. -/
def findIn : List DIE → Nat → Option DIE
  | [], _ => none
  | d :: rest, off => if d.offset = off then some d else findIn rest off

/-- `dwarfinfo.get_DIE_from_refaddr(offset)`: global offset lookup
(`TypeParser._get_die_at_offset`; `none` corresponds to the raised
`ValueError`). -/
def findDie (d : Dwarf) (off : Nat) : Option DIE :=
  findDieIn d.cus off
where
  findDieIn : List CU → Nat → Option DIE
    | [], _ => none
    | cu :: rest, off =>
      match findIn cu.dies off with
      | some die => some die
      | none => findDieIn rest off

/-- `die.iter_children()`: resolve the recorded child offsets. -/
def childrenOf (d : Dwarf) (die : DIE) : List DIE :=
  die.children.filterMap (findDie d)

/-- The subrange scan of the array branch: for every `DW_TAG_subrange_type`
child carrying a `DW_AT_upper_bound` attribute, `count` becomes
`upper + 1`; children without the attribute leave it unchanged
(initially 0). -/
def countSubAux : List DIE → Nat → Nat
  | [], acc => acc
  | c :: cs, acc =>
    countSubAux cs
      (if c.tag = Tag.subrangeType then
        match c.upperBound with
        | some u => u + 1
        | none => acc
      else acc)

/-- See `countSubAux`: the running `count` starts at 0 and each
`DW_TAG_subrange_type` child with an upper bound overwrites it. -/
def countSub (cs : List DIE) : Nat :=
  countSubAux cs 0

/-- The enumerator scan of the enum branch: `DW_AT_const_value` is accessed
unconditionally (its absence raises), the name is inserted only when present
and non-empty; a repeated constant value overwrites the earlier entry. -/
def enumLoop : List DIE → List (Int × String) → Except PErr (List (Int × String))
  | [], mp => .ok mp
  | c :: cs, mp =>
    if c.tag = Tag.enumerator then
      match c.constValue with
      | none => .error .attrMissing
      | some v =>
        match c.name with
        | some s => if s = "" then enumLoop cs mp else enumLoop cs (insertAssoc mp v s)
        | none => enumLoop cs mp
    else enumLoop cs mp
where
  insertAssoc : List (Int × String) → Int → String → List (Int × String)
    | [], k, v => [(k, v)]
    | (k0, v0) :: rest, k, v =>
      if k = k0 then (k, v) :: rest else (k0, v0) :: insertAssoc rest k v

/-- The member loop of the struct branch: for each `DW_TAG_member` child,
decode the name (or anon sentinel), take `DW_AT_data_member_location`
(default 0), and resolve the member's type; a member without a
`DW_AT_type` attribute is skipped entirely.  References are resolved
relative to the struct DIE's CU (`die.cu` in the source). -/
def membersLoop (rec : PState → DIE → Except PErr (Nat × PState)) (d : Dwarf) (sdie : DIE) :
    List DIE → PState → List MemberV → Except PErr (List MemberV × PState)
  | [], st, acc => .ok (acc, st)
  | c :: cs, st, acc =>
    if c.tag = Tag.member then
      match c.typeRef with
      | some r =>
        match findDie d (resolveRef sdie r) with
        | some tdie =>
          match rec st tdie with
          | .ok (tid, st1) =>
            membersLoop rec d sdie cs st1 (acc ++ [⟨anonName c.name, c.memberLoc.getD 0, tid⟩])
          | .error e => .error e
        | none => .error (.dieNotFound (resolveRef sdie r))
      | none => membersLoop rec d sdie cs st acc
    else membersLoop rec d sdie cs st acc

/-- The body of `TypeParser.parse_type` after the cache check, parameterised
by the recursive resolver `rec` (which will be the parser at one unit less
fuel).  Mirrors the source branch by branch:
qualifier/typedef stripping, struct, pointer, array, enum, and the
uncached `PrimitiveType` fallback. -/
def parseGo (rec : Dwarf → PState → DIE → Except PErr (Nat × PState))
    (d : Dwarf) (st : PState) (die : DIE) : Except PErr (Nat × PState) :=
  let name := anonName die.name
  let size := die.byteSize.getD 0
  if die.tag = Tag.constType ∨ die.tag = Tag.volatileType ∨ die.tag = Tag.typedef then
    match die.typeRef with
    | some r =>
      match findDie d (resolveRef die r) with
      | some tdie => rec d st tdie
      | none => .error (.dieNotFound (resolveRef die r))
    | none =>
      let p := alloc st (.prim "void" 0)
      .ok (p.1, p.2)
  else match die.tag with
  | .structureType =>
    let p := alloc st (.struct name size [])
    let st2 := register p.2 die.offset p.1
    match membersLoop (rec d) d die (childrenOf d die) st2 [] with
    | .ok (ms, st3) => .ok (p.1, setNode st3 p.1 (.struct name size ms))
    | .error e => .error e
  | .pointerType =>
    let psz := if size = 0 then 4 else size
    let p := alloc st (.ptr name psz none)
    let st2 := register p.2 die.offset p.1
    match die.typeRef with
    | some r =>
      match findDie d (resolveRef die r) with
      | some tdie =>
        match rec d st2 tdie with
        | .ok (tid, st3) => .ok (p.1, setNode st3 p.1 (.ptr name psz (some tid)))
        | .error e => .error e
      | none => .error (.dieNotFound (resolveRef die r))
    | none => .ok (p.1, st2)
  | .arrayType =>
    let p := alloc st (.arr name size none 0)
    let st2 := register p.2 die.offset p.1
    let elemRes : Except PErr (Option Nat × PState) :=
      match die.typeRef with
      | some r =>
        match findDie d (resolveRef die r) with
        | some tdie =>
          match rec d st2 tdie with
          | .ok (tid, st3) => .ok (some tid, st3)
          | .error e => .error e
        | none => .error (.dieNotFound (resolveRef die r))
      | none => .ok (none, st2)
    match elemRes with
    | .error e => .error e
    | .ok (elem, st3) =>
      let count := countSub (childrenOf d die)
      let size2 :=
        if size = 0 then
          match elem with
          | some tid =>
            if count = 0 then size
            else
              (match heapGet st3.heap tid with
               | some t => nodeSize t
               | none => 0) * count
          | none => size
        else size
      .ok (p.1, setNode st3 p.1 (.arr name size2 elem count))
  | .enumerationType =>
    let p := alloc st (.enumT name size [])
    let st2 := register p.2 die.offset p.1
    match enumLoop (childrenOf d die) [] with
    | .ok mp => .ok (p.1, setNode st2 p.1 (.enumT name size mp))
    | .error e => .error e
  | _ =>
    let p := alloc st (.prim name size)
    .ok (p.1, p.2)

/-- `TypeParser.parse_type`, with fuel for the non-structural recursion on
a possibly cyclic DIE graph.  The cache check comes first; a hit returns the
already-registered node's identity without touching the state. -/
def parseType : Nat → Dwarf → PState → DIE → Except PErr (Nat × PState)
  | 0, _, _, _ => .error .noFuel
  | fuel + 1, d, st, die =>
    match lookupCache st.cache die.offset with
    | some id => .ok (id, st)
    | none => parseGo (parseType fuel) d st die

/-! ### C1: cycle safety of `parse_type` on self-referential structs -/

/-- A struct DIE (global offset 12) with one member child (offset 13). -/
def c1StructDie (sn : String) (ssz : Nat) : DIE :=
  { offset := 12, cuOff := 0, tag := .structureType, name := some sn,
    byteSize := some ssz, children := [13] }

/-- The member child: its type reference points at the pointer DIE. -/
def c1MemberDie (mn : String) (moff : Nat) : DIE :=
  { offset := 13, cuOff := 0, tag := .member, name := some mn,
    typeRef := some ⟨false, 14⟩, memberLoc := some moff }

/-- The pointer DIE (offset 14) whose type reference points back at the
enclosing struct DIE — the self-referential cycle. -/
def c1PtrDie (pn : String) (psz : Nat) : DIE :=
  { offset := 14, cuOff := 0, tag := .pointerType, name := some pn,
    byteSize := some psz, typeRef := some ⟨false, 12⟩ }

/-- The self-referential type graph `struct S { struct S *m; }`, for
arbitrary names, sizes and member offset. -/
def c1Dwarf (sn mn pn : String) (ssz psz moff : Nat) : Dwarf :=
  ⟨[⟨"app.c", [c1StructDie sn ssz, c1MemberDie mn moff, c1PtrDie pn psz]⟩]⟩

/-! ### C7: array count and size resolution -/

/-- An array DIE (offset 20, no `DW_AT_byte_size`) with a subrange child
(offset 21) and an element type reference to a base type (offset 22). -/
def c7ArrayDie (an : String) : DIE :=
  { offset := 20, cuOff := 0, tag := .arrayType, name := some an,
    typeRef := some ⟨false, 22⟩, children := [21] }

/-- A subrange child carrying an upper-bound attribute. -/
def c7SubrangeDie (ub : Option Nat) : DIE :=
  { offset := 21, cuOff := 0, tag := .subrangeType, upperBound := ub }

/-- The element base type, of size `esz`. -/
def c7ElemDie (en : String) (esz : Nat) : DIE :=
  { offset := 22, cuOff := 0, tag := .baseType, name := some en,
    byteSize := some esz }

/-- Array type graph: element of size `esz`, subrange upper bound `ub`. -/
def c7Dwarf (an en : String) (esz : Nat) (ub : Option Nat) : Dwarf :=
  ⟨[⟨"app.c", [c7ArrayDie an, c7SubrangeDie ub, c7ElemDie en esz]⟩]⟩

/-! ### C10: struct members without a type reference are silently omitted -/

/-- A struct DIE (offset 30) with two member children: offset 31 (no type
reference) and offset 32 (typed). -/
def c10StructDie (sn : String) (ssz : Nat) : DIE :=
  { offset := 30, cuOff := 0, tag := .structureType, name := some sn,
    byteSize := some ssz, children := [31, 32] }

/-- First member child: carries no `DW_AT_type` attribute. -/
def c10UntypedMember (an : String) (x : Nat) : DIE :=
  { offset := 31, cuOff := 0, tag := .member, name := some an,
    memberLoc := some x }

/-- Second member child: type reference to the base type at offset 33. -/
def c10TypedMember (bn : String) (y : Nat) : DIE :=
  { offset := 32, cuOff := 0, tag := .member, name := some bn,
    typeRef := some ⟨false, 33⟩, memberLoc := some y }

/-- The base type of the second member. -/
def c10BaseDie (cn : String) (esz : Nat) : DIE :=
  { offset := 33, cuOff := 0, tag := .baseType, name := some cn,
    byteSize := some esz }

/-- Struct graph with one untyped and one typed member child. -/
def c10Dwarf (sn an bn cn : String) (ssz x y esz : Nat) : Dwarf :=
  ⟨[⟨"app.c", [c10StructDie sn ssz, c10UntypedMember an x,
               c10TypedMember bn y, c10BaseDie cn esz]⟩]⟩

/-! ### C2: idempotence of `parse_type` on a repeated root -/

/-- The tags whose `parse_type` branch registers the node in the offset
cache before returning (struct, pointer, array, enum).  Qualifier wrappers
and the base-type fallback do not register anything. -/
def regTag : Tag → Bool
  | .structureType | .pointerType | .arrayType | .enumerationType => true
  | _ => false

/-- A lone base-type DIE (`int`, size 4) at offset 12. -/
def c2BaseDie : DIE :=
  { offset := 12, cuOff := 0, tag := .baseType, name := some "int",
    byteSize := some 4 }

/-- A one-CU debug info holding only the base type. -/
def c2Dwarf : Dwarf :=
  ⟨[⟨"app.c", [c2BaseDie]⟩]⟩

/-- A pointer DIE with no target reference (opaque pointer) at offset 14,
used by the idempotence witness. -/
def c2PtrDie : DIE :=
  { offset := 14, cuOff := 0, tag := .pointerType, name := some "p",
    byteSize := some 4 }

/-- The parser state after resolving `c2PtrDie` once from the empty state. -/
def c2PtrState : PState :=
  { heap := [.ptr "p" 4 none], cache := [(14, 0)] }

/-- Monotonicity interface for a resolver: every binding already present in
the cache is still present (unchanged) after a successful call.  This holds
for `parseType` because the source only ever writes `self.cache[die.offset]`
right after a failed cache lookup for that very offset. -/
def RecMono1 (rec : PState → DIE → Except PErr (Nat × PState)) : Prop :=
  ∀ st die id st2 off nid, lookupCache st.cache off = some nid →
    rec st die = .ok (id, st2) → lookupCache st2.cache off = some nid

/-! ### Memory model and string helpers for the renderer -/

/-- The live-memory capability: `jlink.memory_read(address, length)`, which
returns bytes or raises (an `Except.error` carrying the exception text). -/
abbrev Mem := Nat → Nat → Except String (List Nat)

/-- `int.from_bytes(data, byteorder='little')`. -/
def leNat : List Nat → Nat
  | [] => 0
  | b :: bs => b + 256 * leNat bs

/-- Upper-case hex digit for a value below 16. -/
def hexDigit (d : Nat) : Char :=
  if d < 10 then Char.ofNat (48 + d) else Char.ofNat (55 + d)

/-- Fuelled upper-case hex digits of `n` (most significant first); the fuel
only needs to exceed the digit count, and `hexUp` supplies `n + 1`. -/
def hexUpAux : Nat → Nat → String
  | 0, _ => ""
  | _ + 1, 0 => ""
  | f + 1, n + 1 => hexUpAux f ((n + 1) / 16) ++ String.singleton (hexDigit ((n + 1) % 16))

/-- Python `f"{n:X}"`: upper-case hex without leading zeros. -/
def hexUp (n : Nat) : String :=
  if n = 0 then "0" else hexUpAux (n + 1) n

/-- Python `f"{n:08X}"`: upper-case hex, zero-padded to 8 digits. -/
def padHex8 (n : Nat) : String :=
  String.mk (List.replicate (8 - (hexUp n).length) '0') ++ hexUp n

/-- `" " * k`. -/
def spaces (k : Nat) : String :=
  String.mk (List.replicate k ' ')

/-- Python `f"{s:<{w}}"`: left-aligned padding with spaces (no truncation). -/
def padRight (s : String) (w : Nat) : String :=
  s ++ spaces (w - s.length)

/-- `max(len(m.name) for m in members)`. -/
def maxNameLen (ms : List MemberV) : Nat :=
  (ms.map (fun m => m.name.length)).foldl Nat.max 0

/-- Whether the first list is an initial segment of the second. -/
def takeMatch : List Char → List Char → Bool
  | [], _ => true
  | _ :: _, [] => false
  | a :: as, b :: bs => a == b && takeMatch as bs

/-- Substring occurrence check on character lists. -/
def containsSub (needle : List Char) : List Char → Bool
  | [] => takeMatch needle []
  | c :: t => takeMatch needle (c :: t) || containsSub needle t

/-- Python `needle in hay` on strings. -/
def strContains (hay needle : String) : Bool :=
  containsSub needle.toList hay.toList

/-- Python `s.endswith(suffix)`. -/
def endsWithS (s suf : String) : Bool :=
  takeMatch suf.toList.reverse s.toList.reverse

/-- Comma-space separated join, as in Python's list `str()`. -/
def joinComma : List String → String
  | [] => ""
  | [x] => x
  | x :: xs => x ++ ", " ++ joinComma xs

/-- Python `f"{list(data)}"`: the literal byte-list rendering. -/
def pyList (bs : List Nat) : String :=
  "[" ++ joinComma (bs.map (fun n => toString n)) ++ "]"

/-- Whether a byte is a UTF-8 continuation byte (`0x80..0xBF`). -/
def isCont (b : Nat) : Bool :=
  128 ≤ b && b ≤ 191

/-- Strict UTF-8 decoding of a byte sequence into characters (as Python's
`bytes.decode('utf-8')`): rejects stray continuation bytes, overlong
encodings, surrogates and values beyond U+10FFFF. -/
def utf8Chars : List Nat → Option (List Char)
  | [] => some []
  | b :: bs =>
    if b < 128 then
      (utf8Chars bs).map (fun cs => Char.ofNat b :: cs)
    else if 194 ≤ b ∧ b ≤ 223 then
      match bs with
      | c1 :: rest =>
        if isCont c1 then
          (utf8Chars rest).map (fun cs => Char.ofNat ((b - 192) * 64 + (c1 - 128)) :: cs)
        else none
      | [] => none
    else if b = 224 then
      match bs with
      | c1 :: c2 :: rest =>
        if (160 ≤ c1 ∧ c1 ≤ 191) ∧ isCont c2 then
          (utf8Chars rest).map (fun cs =>
            Char.ofNat ((c1 - 128) * 64 + (c2 - 128)) :: cs)
        else none
      | _ => none
    else if (225 ≤ b ∧ b ≤ 236) ∨ b = 238 ∨ b = 239 then
      match bs with
      | c1 :: c2 :: rest =>
        if isCont c1 ∧ isCont c2 then
          (utf8Chars rest).map (fun cs =>
            Char.ofNat ((b - 224) * 4096 + (c1 - 128) * 64 + (c2 - 128)) :: cs)
        else none
      | _ => none
    else if b = 237 then
      match bs with
      | c1 :: c2 :: rest =>
        if (128 ≤ c1 ∧ c1 ≤ 159) ∧ isCont c2 then
          (utf8Chars rest).map (fun cs =>
            Char.ofNat ((b - 224) * 4096 + (c1 - 128) * 64 + (c2 - 128)) :: cs)
        else none
      | _ => none
    else if b = 240 then
      match bs with
      | c1 :: c2 :: c3 :: rest =>
        if (144 ≤ c1 ∧ c1 ≤ 191) ∧ isCont c2 ∧ isCont c3 then
          (utf8Chars rest).map (fun cs =>
            Char.ofNat ((c1 - 128) * 4096 + (c2 - 128) * 64 + (c3 - 128)) :: cs)
        else none
      | _ => none
    else if 241 ≤ b ∧ b ≤ 243 then
      match bs with
      | c1 :: c2 :: c3 :: rest =>
        if isCont c1 ∧ isCont c2 ∧ isCont c3 then
          (utf8Chars rest).map (fun cs =>
            Char.ofNat ((b - 240) * 262144 + (c1 - 128) * 4096 +
              (c2 - 128) * 64 + (c3 - 128)) :: cs)
        else none
      | _ => none
    else if b = 244 then
      match bs with
      | c1 :: c2 :: c3 :: rest =>
        if (128 ≤ c1 ∧ c1 ≤ 143) ∧ isCont c2 ∧ isCont c3 then
          (utf8Chars rest).map (fun cs =>
            Char.ofNat ((b - 240) * 262144 + (c1 - 128) * 4096 +
              (c2 - 128) * 64 + (c3 - 128)) :: cs)
        else none
      | _ => none
    else none

/-- Python `bytes(...).decode('utf-8')` as an optional string. -/
def utf8Decode (bs : List Nat) : Option String :=
  (utf8Chars bs).map (fun cs => String.mk cs)

/-- `isinstance(element_type, PrimitiveType) and element_type.size == 1`. -/
def isPrim1 : TypeInfoV → Bool
  | .prim _ 1 => true
  | _ => false

/-- `dict.get` on the enum constant-to-name mapping. -/
def lookupI : List (Int × String) → Int → Option String
  | [], _ => none
  | (k, v) :: rest, q => if q = k then some v else lookupI rest q

/-! ### Symbol information and the state-pointer-to-name mapper -/

/-- `SymbolInfo` of the source, with the node arena (`typeHeap`) of the
module's `TypeParser` carried alongside so node ids stay meaningful. -/
structure SymbolInfoM where
  stateVarAddr : Option Nat := none
  statesArrayAddr : Option Nat := none
  stateVarType : Option Nat := none
  enumMap : List (Int × String) := []
  typeHeap : List TypeInfoV := []
deriving DecidableEq

/-- Size of `struct smf_state` in bytes (`SMF_STATE_SIZE_DEFAULT`). -/
def SMF_STATE_SIZE_DEFAULT : Nat := 20

/-- `read_smf_state_name`: maps the current-state pointer to a symbolic
name.  An unknown (or zero) states-array base, or a NULL pointer, yields
`"NULL"`; a pointer before the base yields `"Unknown (0x...)"`; otherwise
the offset is divided by the default stride 20 (fallback stride 16), the
index looked up in the enum map (`"State <i>"` when unmapped), and a
non-dividing offset yields the raw pointer in hex. -/
def readSmfStateName (info : SymbolInfoM) (p : Nat) : String :=
  if info.statesArrayAddr.getD 0 = 0 ∨ p = 0 then "NULL"
  else
    let base := info.statesArrayAddr.getD 0
    if p < base then "Unknown (0x" ++ hexUp p ++ ")"
    else
      let off := p - base
      if off % SMF_STATE_SIZE_DEFAULT = 0 then
        smfIndexName info (off / SMF_STATE_SIZE_DEFAULT)
      else if off % 16 = 0 then
        smfIndexName info (off / 16)
      else "0x" ++ hexUp p
where
  smfIndexName (info : SymbolInfoM) (i : Nat) : String :=
    match lookupI info.enumMap (Int.ofNat i) with
    | some nm => nm
    | none => "State " ++ toString i

/-! ### The memory value renderer -/

/-- `read_value`: reads and formats a value from memory based on its type.
Total by construction: every memory-read failure surfaces as an inline
`"<Error: ...>"` string, mirroring the `try/except` wrapper of the
source. -/
def readValue (heap : List TypeInfoV) (mem : Mem) (addr : Nat) : TypeInfoV → String
  | .prim name size =>
    if size = 0 then "void"
    else
      match mem addr size with
      | .error e => "<Error: " ++ e ++ ">"
      | .ok data =>
        let v := leNat data
        if name = "bool" then (if v = 0 then "false" else "true")
        else if strContains name "char" then
          (if 32 ≤ v ∧ v ≤ 126 then "'" ++ String.singleton (Char.ofNat v) ++ "'"
           else toString v)
        else toString v ++ " (0x" ++ hexUp v ++ ")"
  | .enumT _ size mapping =>
    match mem addr (if size = 0 then 4 else size) with
    | .error e => "<Error: " ++ e ++ ">"
    | .ok data =>
      let v := leNat data
      (match lookupI mapping (Int.ofNat v) with
       | some nm => nm
       | none => toString v) ++ " (" ++ toString v ++ ")"
  | .ptr _ _ _ =>
    match mem addr 4 with
    | .error e => "<Error: " ++ e ++ ">"
    | .ok data =>
      let v := leNat data
      if v = 0 then "NULL" else "0x" ++ padHex8 v
  | .arr _ _ element count =>
    if 16 < count then "Array[" ++ toString count ++ "] (too large to display)"
    else
      match (match element with | some tid => heapGet heap tid | none => none) with
      | some t =>
        if isPrim1 t then
          match mem addr count with
          | .error e => "<Error: " ++ e ++ ">"
          | .ok data =>
            if data.contains 0 then
              match utf8Decode (data.takeWhile (fun b => b != 0)) with
              | some s => "\"" ++ s ++ "\""
              | none => pyList data
            else pyList data
        else "Array[" ++ toString count ++ "]"
      | none => "Array[" ++ toString count ++ "]"
  | .struct name _ _ => name ++ " \x7b ... \x7d"

/-- `read_value` lifted to a node id through the arena. -/
def readValueId (heap : List TypeInfoV) (mem : Mem) (addr : Nat) (tid : Nat) : String :=
  match heapGet heap tid with
  | some t => readValue heap mem addr t
  | none => "?"

/-- One pass of `print_struct` over the member list of one nesting level.
`recNested` prints a nested struct level (it will be `printStructLines` at
one unit less fuel).  Mirrors the source: the `smf_ctx` special case first
(falling through to the generic path if its 4-byte read fails), then the
scalar `read_value` line, expanding non-`smf_ctx` struct members with
braces and increased indentation. -/
def printMembers (recNested : Nat → List MemberV → Nat → List String)
    (heap : List TypeInfoV) (mem : Mem) (info : SymbolInfoM)
    (addr indent L : Nat) : List MemberV → List String
  | [] => []
  | m :: rest =>
    let maddr := addr + m.off
    let pre := spaces indent
    let tnode := heapGet heap m.tid
    let tname := match tnode with | some t => nodeName t | none => ""
    let fallbackLines :=
      let vs := readValueId heap mem maddr m.tid
      match tnode with
      | some (.struct _ _ ms2) =>
        if tname = "smf_ctx" then
          [pre ++ padRight m.name L ++ " : " ++ vs]
        else
          [pre ++ padRight m.name L ++ " : " ++ vs, pre ++ "  \x7b"] ++
            recNested maddr ms2 (indent + 4) ++ [pre ++ "  \x7d"]
      | _ => [pre ++ padRight m.name L ++ " : " ++ vs]
    let lines :=
      if tname = "smf_ctx" then
        match mem maddr 4 with
        | .ok data =>
          [pre ++ padRight m.name L ++ " : " ++ readSmfStateName info (leNat data)]
        | .error _ => fallbackLines
      else fallbackLines
    lines ++ printMembers recNested heap mem info addr indent L rest

/-- `print_struct` as the list of printed lines, with fuel bounding the
nesting depth of expanded struct members. -/
def printStructLines : Nat → List TypeInfoV → Mem → SymbolInfoM → Nat → List MemberV → Nat → List String
  | 0, _, _, _, _, _, _ => []
  | fuel + 1, heap, mem, info, addr, members, indent =>
    if members.isEmpty then []
    else
      printMembers (printStructLines fuel heap mem info) heap mem info addr indent
        (maxNameLen members) members

/-! ### The symbol locator (`get_symbol_info` / `analyze_elf`) -/

/-- `ModuleConfig` of the source. -/
structure ModuleConfig where
  name : String
  fileName : String
  functionName : String
  variableName : String
  statesArrayName : String
  enumTypeName : Option String := none
deriving DecidableEq

/-- The `MODULES` table of the source. -/
def MODULES : List ModuleConfig :=
  [⟨"Main", "main.c", "main", "main_state", "states", some "state"⟩,
   ⟨"Cloud", "cloud.c", "cloud_module_thread", "cloud_state", "states",
    some "cloud_module_state"⟩,
   ⟨"Location", "location.c", "location_module_thread", "location_state", "states",
    some "location_module_state"⟩,
   ⟨"Network", "network.c", "network_module_thread", "network_state", "states",
    some "network_module_state"⟩,
   ⟨"FOTA", "fota.c", "fota_module_thread", "fota_state", "states",
    some "fota_module_state"⟩,
   ⟨"Env", "environmental.c", "env_module_thread", "environmental_state", "states",
    some "environmental_module_state"⟩,
   ⟨"Power", "power.c", "power_module_thread", "power_state", "states",
    some "power_module_state"⟩,
   ⟨"Storage", "storage.c", "storage_thread", "storage_state", "states",
    some "storage_module_state"⟩]

/-- `DW_OP_ADDR`. -/
def DW_OP_ADDR : Nat := 3

/-- `_extract_address_from_location`: a location expression starting with
`DW_OP_ADDR` yields the little-endian address in the remaining bytes;
anything else yields no static address. -/
def extractAddr : Option (List Nat) → Option Nat
  | none => none
  | some [] => none
  | some (b :: rest) => if b = DW_OP_ADDR then some (leNat rest) else none

/-- The children scan of a matching subprogram: find the local variable
named `cfg.variableName`, record its address when the location is a literal
address, and resolve its declared type (references resolved against the
subprogram DIE's CU, as `die.cu` in the source). -/
def scanVars (fuel : Nat) (d : Dwarf) (cfg : ModuleConfig) (sub : DIE) :
    List DIE → SymbolInfoM × PState → Except PErr (SymbolInfoM × PState)
  | [], acc => .ok acc
  | c :: cs, acc =>
    if c.tag = Tag.variableTag ∧ c.name = some cfg.variableName then
      match extractAddr c.location with
      | some a =>
        let si1 := { acc.1 with stateVarAddr := some a }
        match c.typeRef with
        | some r =>
          match findDie d (resolveRef sub r) with
          | some tdie =>
            match parseType fuel d acc.2 tdie with
            | .ok (tid, st1) =>
              scanVars fuel d cfg sub cs ({ si1 with stateVarType := some tid }, st1)
            | .error e => .error e
          | none => .error (.dieNotFound (resolveRef sub r))
        | none => scanVars fuel d cfg sub cs (si1, acc.2)
      | none => scanVars fuel d cfg sub cs acc
    else scanVars fuel d cfg sub cs acc

/-- The three per-DIE checks of `get_symbol_info`: (1) a subprogram named
`cfg.functionName` has its children scanned for the state variable, (2) any
variable named `cfg.statesArrayName` contributes the states-array address,
(3) an enumeration type named `cfg.enumTypeName` contributes the enum
map. -/
def scanDie (fuel : Nat) (d : Dwarf) (cfg : ModuleConfig) (acc : SymbolInfoM × PState)
    (die : DIE) : Except PErr (SymbolInfoM × PState) :=
  match (if die.tag = Tag.subprogram ∧ die.name = some cfg.functionName then
          scanVars fuel d cfg die (childrenOf d die) acc
        else .ok acc) with
  | .error e => .error e
  | .ok acc1 =>
    let acc2 : SymbolInfoM × PState :=
      if die.tag = Tag.variableTag ∧ die.name = some cfg.statesArrayName then
        match extractAddr die.location with
        | some a => ({ acc1.1 with statesArrayAddr := some a }, acc1.2)
        | none => acc1
      else acc1
    match cfg.enumTypeName with
    | some en =>
      if die.tag = Tag.enumerationType ∧ die.name = some en then
        match parseType fuel d acc2.2 die with
        | .ok (tid, st1) =>
          match heapGet st1.heap tid with
          | some (.enumT _ _ mp) => .ok ({ acc2.1 with enumMap := mp }, st1)
          | _ => .error .attrMissing
        | .error e => .error e
      else .ok acc2
    | none => .ok acc2

/-- Scan all DIEs of one CU in order. -/
def scanDies (fuel : Nat) (d : Dwarf) (cfg : ModuleConfig) :
    List DIE → SymbolInfoM × PState → Except PErr (SymbolInfoM × PState)
  | [], acc => .ok acc
  | die :: rest, acc =>
    match scanDie fuel d cfg acc die with
    | .ok acc1 => scanDies fuel d cfg rest acc1
    | .error e => .error e

/-- Iterate CUs: only CUs whose path ends with `cfg.fileName` are scanned,
and the iteration stops after the first matching CU in which the state
variable's address was found. -/
def scanCUs (fuel : Nat) (d : Dwarf) (cfg : ModuleConfig) :
    List CU → SymbolInfoM × PState → Except PErr (SymbolInfoM × PState)
  | [], acc => .ok acc
  | cu :: rest, acc =>
    if endsWithS cu.path cfg.fileName then
      match scanDies fuel d cfg cu.dies acc with
      | .ok acc1 =>
        if acc1.1.stateVarAddr.isSome then .ok acc1 else scanCUs fuel d cfg rest acc1
      | .error e => .error e
    else scanCUs fuel d cfg rest acc

/-- `get_symbol_info`: a fresh `TypeParser` per module, then the CU scan;
the parser's arena is kept in the returned record. -/
def getSymbolInfo (fuel : Nat) (d : Dwarf) (cfg : ModuleConfig) : Except PErr SymbolInfoM :=
  match scanCUs fuel d cfg d.cus ({}, {}) with
  | .ok (si, st) => .ok { si with typeHeap := st.heap }
  | .error e => .error e

/-- The per-module loop inside `analyze_elf`'s `try` block: modules whose
state variable was not located are skipped; a raised error aborts the
loop. -/
def analyzeLoop (fuel : Nat) (d : Dwarf) :
    List ModuleConfig → List (String × SymbolInfoM) →
      Except PErr (List (String × SymbolInfoM))
  | [], acc => .ok acc
  | m :: ms, acc =>
    match getSymbolInfo fuel d m with
    | .ok info =>
      analyzeLoop fuel d ms
        (if info.stateVarAddr = none then acc else acc ++ [(m.name, info)])
    | .error e => .error e

/-- `analyze_elf`: the surrounding `except Exception` catches any error
raised while processing any module and returns the empty lookup. -/
def analyzeElf (fuel : Nat) (d : Dwarf) (mods : List ModuleConfig) :
    List (String × SymbolInfoM) :=
  match analyzeLoop fuel d mods [] with
  | .ok l => l
  | .error _ => []

/-! ### Concrete instances for the C3-C6, C8 and C5 theorems -/

/-- The C3 scenario: states-array base `0x1000`, enum map
`{0: "STATE_A", 1: "STATE_B"}`. -/
def c3Info : SymbolInfoM :=
  { statesArrayAddr := some 4096, enumMap := [(0, "STATE_A"), (1, "STATE_B")] }

/-- The C6 witness heap: two 4-byte primitives. -/
def c6Heap : List TypeInfoV := [.prim "aa" 4, .prim "b" 4]

/-- The C6 witness memory: reading address 10 fails, everything else reads
`[5, 0, 0, 0]`. -/
def c6Mem : Mem := fun a _ => if a = 10 then .error "boom" else .ok [5, 0, 0, 0]

/-- The C8 witness heap: one 1-byte `char` primitive. -/
def c8Heap : List TypeInfoV := [.prim "char" 1]

/-- C8 witness memory a: bytes with an embedded zero. -/
def c8MemA : Mem := fun _ _ => .ok [65, 66, 0, 0]

/-- C8 witness memory b: bytes without a zero. -/
def c8MemB : Mem := fun _ _ => .ok [65, 66, 67, 68]

/-- C5: the `main.c` subprogram DIE. -/
def c5MainSub : DIE :=
  { offset := 100, cuOff := 0, tag := .subprogram, name := some "main",
    children := [101] }

/-- C5: the `main_state` variable with a literal address and a resolvable
type. -/
def c5MainVar : DIE :=
  { offset := 101, cuOff := 0, tag := .variableTag, name := some "main_state",
    typeRef := some ⟨false, 102⟩, location := some [3, 0, 0, 0, 32] }

/-- C5: the `int` base type of `main_state`. -/
def c5MainInt : DIE :=
  { offset := 102, cuOff := 0, tag := .baseType, name := some "int",
    byteSize := some 4 }

/-- C5: the `cloud.c` subprogram DIE. -/
def c5CloudSub : DIE :=
  { offset := 200, cuOff := 0, tag := .subprogram,
    name := some "cloud_module_thread", children := [201] }

/-- C5: the `cloud_state` variable whose type reference points at a
nonexistent offset — the type-resolution failure. -/
def c5CloudVar : DIE :=
  { offset := 201, cuOff := 0, tag := .variableTag, name := some "cloud_state",
    typeRef := some ⟨false, 999⟩, location := some [3, 16, 0, 0, 32] }

/-- C5: debug info in which `Main` resolves fine and `Cloud`'s root type
reference is dangling. -/
def c5Dwarf : Dwarf :=
  ⟨[⟨"/p/main.c", [c5MainSub, c5MainVar, c5MainInt]⟩,
    ⟨"/p/cloud.c", [c5CloudSub, c5CloudVar]⟩]⟩

/-- The `Cloud` entry of `MODULES`. -/
def cloudConfig : ModuleConfig :=
  ⟨"Cloud", "cloud.c", "cloud_module_thread", "cloud_state", "states",
   some "cloud_module_state"⟩

/-! ## Theorems -/

theorem parseType_succ (n : Nat) (d : Dwarf) (st : PState) (die : DIE) :
    parseType (n + 1) d st die =
      match lookupCache st.cache die.offset with
      | some id => .ok (id, st)
      | none => parseGo (parseType n) d st die := rfl

theorem parseType_zero (d : Dwarf) (st : PState) (die : DIE) :
    parseType 0 d st die = .error .noFuel := rfl

theorem lookupCache_register (st : PState) (off id off2 : Nat) :
    lookupCache (register st off id).cache off2 =
      if off2 = off then some id else lookupCache st.cache off2 := rfl

theorem alloc_cache (st : PState) (v : TypeInfoV) :
    (alloc st v).2.cache = st.cache := rfl

theorem setNode_cache (st : PState) (i : Nat) (v : TypeInfoV) :
    (setNode st i v).cache = st.cache := rfl

theorem membersLoop_mono {rec : PState → DIE → Except PErr (Nat × PState)}
    (hI : RecMono1 rec) (d : Dwarf) (sdie : DIE) :
    ∀ (cs : List DIE) (st : PState) (acc ms : List MemberV) (st2 : PState),
      membersLoop rec d sdie cs st acc = .ok (ms, st2) →
      ∀ off nid, lookupCache st.cache off = some nid →
        lookupCache st2.cache off = some nid := by
  intro cs
  induction cs with
  | nil =>
    intro st acc ms st2 hml off nid hl
    simp only [membersLoop, Except.ok.injEq, Prod.mk.injEq] at hml
    exact hml.2 ▸ hl
  | cons c cs ih =>
    intro st acc ms st2 hml off nid hl
    simp only [membersLoop] at hml
    split at hml
    · split at hml
      · split at hml
        · split at hml
          · rename_i tid st1 hrec
            exact ih _ _ _ _ hml off nid (hI _ _ _ _ _ _ hl hrec)
          · cases hml
        · cases hml
      · exact ih _ _ _ _ hml off nid hl
    · exact ih _ _ _ _ hml off nid hl

theorem parseGo_mono {rec : Dwarf → PState → DIE → Except PErr (Nat × PState)}
    (d : Dwarf) (hI : RecMono1 (rec d)) (st : PState) (die : DIE) (id : Nat) (st2 : PState)
    (hmiss : lookupCache st.cache die.offset = none)
    (hp : parseGo rec d st die = .ok (id, st2)) :
    ∀ off nid, lookupCache st.cache off = some nid →
      lookupCache st2.cache off = some nid := by
  intro off nid hl
  have hne : off ≠ die.offset := by
    intro h
    rw [h, hmiss] at hl
    cases hl
  have hreglook : ∀ st1 : PState, st1.cache = st.cache → ∀ j : Nat,
      lookupCache (register st1 die.offset j).cache off = some nid := by
    intro st1 hcc j
    rw [lookupCache_register, if_neg hne, hcc]
    exact hl
  simp only [parseGo] at hp
  split at hp
  · -- qualifier / typedef stripping branch
    split at hp
    · split at hp
      · exact hI _ _ _ _ _ _ hl hp
      · cases hp
    · simp only [Except.ok.injEq, Prod.mk.injEq] at hp
      rw [← hp.2, alloc_cache]
      exact hl
  · split at hp
    · -- structureType
      split at hp
      · rename_i ms st3 hml
        simp only [Except.ok.injEq, Prod.mk.injEq] at hp
        rw [← hp.2, setNode_cache]
        exact membersLoop_mono hI d die _ _ _ _ _ hml off nid (hreglook _ (alloc_cache st _) _)
      · cases hp
    · -- pointerType
      split at hp
      · split at hp
        · split at hp
          · rename_i tid st3 hrec
            simp only [Except.ok.injEq, Prod.mk.injEq] at hp
            rw [← hp.2, setNode_cache]
            exact hI _ _ _ _ _ _ (hreglook _ (alloc_cache st _) _) hrec
          · cases hp
        · cases hp
      · simp only [Except.ok.injEq, Prod.mk.injEq] at hp
        rw [← hp.2]
        exact hreglook _ (alloc_cache st _) _
    · -- arrayType
      split at hp
      · cases hp
      · rename_i elem st3 helem
        simp only [Except.ok.injEq, Prod.mk.injEq] at hp
        rw [← hp.2, setNode_cache]
        split at helem
        · split at helem
          · split at helem
            · rename_i tid st4 hrec
              simp only [Except.ok.injEq, Prod.mk.injEq] at helem
              rw [← helem.2]
              exact hI _ _ _ _ _ _ (hreglook _ (alloc_cache st _) _) hrec
            · cases helem
          · cases helem
        · simp only [Except.ok.injEq, Prod.mk.injEq] at helem
          rw [← helem.2]
          exact hreglook _ (alloc_cache st _) _
    · -- enumerationType
      split at hp
      · simp only [Except.ok.injEq, Prod.mk.injEq] at hp
        rw [← hp.2, setNode_cache]
        exact hreglook _ (alloc_cache st _) _
      · cases hp
    · -- fallback: base types and other tags, allocation only
      simp only [Except.ok.injEq, Prod.mk.injEq] at hp
      rw [← hp.2, alloc_cache]
      exact hl

theorem parseType_mono (d : Dwarf) : ∀ fuel, RecMono1 (parseType fuel d) := by
  intro fuel
  induction fuel with
  | zero =>
    intro st die id st2 off nid hl hp
    rw [parseType_zero] at hp
    cases hp
  | succ n ih =>
    intro st die id st2 off nid hl hp
    rw [parseType_succ] at hp
    cases hc : lookupCache st.cache die.offset with
    | some j =>
      rw [hc] at hp
      simp only [Except.ok.injEq, Prod.mk.injEq] at hp
      exact hp.2 ▸ hl
    | none =>
      rw [hc] at hp
      exact parseGo_mono d ih st die id st2 hc hp off nid hl

theorem parseType_registers (d : Dwarf) (fuel : Nat) (st : PState) (die : DIE)
    (id : Nat) (st2 : PState) (hreg : regTag die.tag = true)
    (hp : parseType fuel d st die = .ok (id, st2)) :
    lookupCache st2.cache die.offset = some id := by
  cases fuel with
  | zero =>
    rw [parseType_zero] at hp
    cases hp
  | succ n =>
    rw [parseType_succ] at hp
    cases hc : lookupCache st.cache die.offset with
    | some j =>
      rw [hc] at hp
      simp only [Except.ok.injEq, Prod.mk.injEq] at hp
      rw [← hp.2, ← hp.1]
      exact hc
    | none =>
      rw [hc] at hp
      have hself : ∀ st1 : PState, ∀ j : Nat,
          lookupCache (register st1 die.offset j).cache die.offset = some j := by
        intro st1 j
        rw [lookupCache_register, if_pos rfl]
      simp only [parseGo] at hp
      split at hp
      · -- qualifier branch is impossible for a registering tag
        rename_i hq
        rcases hq with h | h | h <;> rw [h] at hreg <;> exact absurd hreg (by decide)
      · split at hp
        · -- structureType
          split at hp
          · rename_i ms st3 hml
            simp only [Except.ok.injEq, Prod.mk.injEq] at hp
            rw [← hp.2, setNode_cache, ← hp.1]
            exact membersLoop_mono (parseType_mono d n) d die _ _ _ _ _ hml _ _ (hself _ _)
          · cases hp
        · -- pointerType
          split at hp
          · split at hp
            · split at hp
              · rename_i tid st3 hrec
                simp only [Except.ok.injEq, Prod.mk.injEq] at hp
                rw [← hp.2, setNode_cache, ← hp.1]
                exact parseType_mono d n _ _ _ _ _ _ (hself _ _) hrec
              · cases hp
            · cases hp
          · simp only [Except.ok.injEq, Prod.mk.injEq] at hp
            rw [← hp.2, ← hp.1]
            exact hself _ _
        · -- arrayType
          split at hp
          · cases hp
          · rename_i elem st3 helem
            simp only [Except.ok.injEq, Prod.mk.injEq] at hp
            rw [← hp.2, setNode_cache, ← hp.1]
            split at helem
            · split at helem
              · split at helem
                · rename_i tid st4 hrec
                  simp only [Except.ok.injEq, Prod.mk.injEq] at helem
                  rw [← helem.2]
                  exact parseType_mono d n _ _ _ _ _ _ (hself _ _) hrec
                · cases helem
              · cases helem
            · simp only [Except.ok.injEq, Prod.mk.injEq] at helem
              rw [← helem.2]
              exact hself _ _
        · -- enumerationType
          split at hp
          · simp only [Except.ok.injEq, Prod.mk.injEq] at hp
            rw [← hp.2, setNode_cache, ← hp.1]
            exact hself _ _
          · cases hp
        · -- fallback tags contradict the registering hypothesis
          rename_i t hs hpt har hen
          exfalso
          cases htag : die.tag
          case structureType => exact hs htag
          case pointerType => exact hpt htag
          case arrayType => exact har htag
          case enumerationType => exact hen htag
          all_goals rw [htag] at hreg
          all_goals exact absurd hreg (by decide)

/-- C1: for every self-referential struct type graph of the shape
`struct S { struct S *m; }` (arbitrary struct/member/pointer names, sizes
and member offset), `TypeParser.parse_type` terminates (returns `.ok` with
fuel 3) and the resolved pointer member's `target_type` is identity-equal to
the enclosing struct node: the struct is allocated as node 0, the member's
type is node 1 (the pointer), and that pointer's target is `some 0` — the
very same node id as the enclosing `StructType`, because offset 12 was
registered in the cache before the member was resolved. -/
theorem parse_self_referential_struct (sn mn pn : String) (ssz psz moff : Nat) :
    parseType 3 (c1Dwarf sn mn pn ssz psz moff) {} (c1StructDie sn ssz) =
      .ok (0,
        { heap := [.struct (anonName (some sn)) ssz [⟨anonName (some mn), moff, 1⟩],
                   .ptr (anonName (some pn)) (if psz = 0 then 4 else psz) (some 0)],
          cache := [(14, 1), (12, 0)] }) := rfl

/-- C7: for an array type record whose subrange child carries upper-bound
value `u` (i.e. `N - 1` with `N = u + 1`), the resolved `count` is `u + 1`,
and since the record's own byte-size is absent while the element resolves
with size `esz`, the resolved array size is `esz * (u + 1)`; with the
upper-bound attribute absent, the resolved `count` is 0 (and the size stays
0, no recalculation).  Arbitrary names, element size and bound. -/
theorem parse_array_count_and_size (an en : String) (esz u : Nat) :
    parseType 2 (c7Dwarf an en esz (some u)) {} (c7ArrayDie an) =
      .ok (0,
        { heap := [.arr (anonName (some an)) (esz * (u + 1)) (some 1) (u + 1),
                   .prim (anonName (some en)) esz],
          cache := [(20, 0)] })
    ∧
    parseType 2 (c7Dwarf an en esz none) {} (c7ArrayDie an) =
      .ok (0,
        { heap := [.arr (anonName (some an)) 0 (some 1) 0,
                   .prim (anonName (some en)) esz],
          cache := [(20, 0)] }) :=
  ⟨rfl, rfl⟩

/-- C10: a member child record lacking a type-reference attribute is
silently omitted from the resolved `StructType`'s member list: the resolved
struct has exactly one member (the typed one, with its resolved type node),
no placeholder entry, and no error — for arbitrary names, offsets and
sizes. -/
theorem parse_struct_skips_untyped_members
    (sn an bn cn : String) (ssz x y esz : Nat) :
    parseType 2 (c10Dwarf sn an bn cn ssz x y esz) {} (c10StructDie sn ssz) =
      .ok (0,
        { heap := [.struct (anonName (some sn)) ssz [⟨anonName (some bn), y, 1⟩],
                   .prim (anonName (some cn)) esz],
          cache := [(30, 0)] }) := rfl

/-- C2 (counterexample): the claim includes base-type roots, but the
base-type fallback of `parse_type` returns a freshly constructed
`PrimitiveType` without registering it in the cache.  Resolving the very
same base-type record twice from the same parser therefore constructs two
distinct nodes: the first call returns node 0, the second call on the
resulting state returns a different node (id 1), duplicating the
construction instead of returning the identical node. -/
theorem parse_base_type_twice_fresh_nodes :
    parseType 1 c2Dwarf {} c2BaseDie =
      .ok (0, { heap := [.prim "int" 4], cache := [] }) ∧
    parseType 1 c2Dwarf { heap := [.prim "int" 4], cache := [] } c2BaseDie =
      .ok (1, { heap := [.prim "int" 4, .prim "int" 4], cache := [] }) :=
  ⟨rfl, rfl⟩

/-- C2 (amended): resolving the same root type-record identity twice
returns the identical node with no duplicate construction whenever the
root record's tag is one of the cache-registering ones (struct, pointer,
array, enum): after any successful first resolution, a second call on the
resulting state is a cache hit returning the same node id and leaving the
state untouched.  (For base-type roots — and qualifier wrappers ending in
one — each call constructs a fresh node, see the counterexample.) -/
theorem parse_cached_root_idempotent (fuel fuel2 : Nat) (d : Dwarf) (st : PState)
    (die : DIE) (id : Nat) (st2 : PState) (hreg : regTag die.tag = true)
    (hp : parseType fuel d st die = .ok (id, st2)) :
    parseType (fuel2 + 1) d st2 die = .ok (id, st2) := by
  rw [parseType_succ, parseType_registers d fuel st die id st2 hreg hp]

theorem parse_cached_root_idempotent_witness :
    parseType 1 (Dwarf.mk []) c2PtrState c2PtrDie = .ok (0, c2PtrState) :=
  parse_cached_root_idempotent 1 0 (Dwarf.mk []) {} c2PtrDie 0 c2PtrState rfl rfl

theorem printStructLines_succ (fuel : Nat) (heap : List TypeInfoV) (mem : Mem)
    (info : SymbolInfoM) (addr : Nat) (members : List MemberV) (indent : Nat) :
    printStructLines (fuel + 1) heap mem info addr members indent =
      if members.isEmpty then []
      else
        printMembers (printStructLines fuel heap mem info) heap mem info addr indent
          (maxNameLen members) members := rfl

/-- C3 (counterexample): the claim expects the mapper to return
`"STATE_A (0)"` for pointer `0x1000`, but `read_smf_state_name` returns the
bare enum name without the ` (index)` suffix. -/
theorem smf_state_name_no_index_suffix :
    readSmfStateName c3Info 4096 ≠ "STATE_A (0)" := by decide

/-- C3 (amended): with `statesArrayBase = 0x1000`, default stride 20 and
`enumMap = {0: "STATE_A", 1: "STATE_B"}`, the mapper yields the bare enum
names: `0x1000 ↦ "STATE_A"`, `0x1014 ↦ "STATE_B"`, `0 ↦ "NULL"`, and the
before-base pointer `0x0FF0 ↦ "Unknown (0xFF0)"` (the out-of-range marker,
not an index). -/
theorem smf_state_name_mapping :
    readSmfStateName c3Info 4096 = "STATE_A" ∧
    readSmfStateName c3Info 4116 = "STATE_B" ∧
    readSmfStateName c3Info 0 = "NULL" ∧
    readSmfStateName c3Info 4080 = "Unknown (0xFF0)" := by decide

/-- C4 (counterexample): with the states-array base unknown (`None`) the
claim expects `"Unknown (0x1234)"` for pointer `0x1234`, but
`read_smf_state_name` takes the first branch (`not info.states_array_addr`)
and returns `"NULL"`. -/
theorem smf_state_name_unknown_base_cex :
    readSmfStateName {} 4660 = "NULL" ∧
    readSmfStateName {} 4660 ≠ "Unknown (0x1234)" := by decide

/-- C4 (amended): for every nonzero pointer value, when the states-array
base address is unknown the mapper returns `"NULL"` (not
`"Unknown (0xHEX)"`; that marker is reserved for pointers before a known
base). -/
theorem smf_state_name_unknown_base_null (info : SymbolInfoM)
    (hbase : info.statesArrayAddr = none) (p : Nat) (_hp : p ≠ 0) :
    readSmfStateName info p = "NULL" := by
  simp [readSmfStateName, hbase]

theorem smf_state_name_unknown_base_null_witness :
    readSmfStateName {} 4660 = "NULL" :=
  smf_state_name_unknown_base_null {} rfl 4660 (by decide)

/-- C9: for every array type with `count > 16`, whatever the element type
(`element` and `heap` arbitrary) and without reading memory (`mem`
arbitrary, absent from the result), `read_value` returns exactly
`"Array[<count>] (too large to display)"`. -/
theorem read_value_array_display_cap (heap : List TypeInfoV) (mem : Mem)
    (addr : Nat) (an : String) (asz : Nat) (element : Option Nat) (count : Nat)
    (h : 16 < count) :
    readValue heap mem addr (.arr an asz element count) =
      "Array[" ++ toString count ++ "] (too large to display)" := by
  simp only [readValue]
  rw [if_pos h]

theorem read_value_array_display_cap_witness :
    readValue [] (fun _ _ => .error "x") 0 (.arr "a" 0 none 17) =
      "Array[17] (too large to display)" :=
  (read_value_array_display_cap [] (fun _ _ => .error "x") 0 "a" 0 none 17
    (by decide)).trans (by decide)

/-- C8: rendering an array of size-1 primitive elements with
`count ≤ 16` reads `count` bytes; if they contain a zero byte, the bytes
before the first zero are decoded as UTF-8 and rendered quoted (falling
back to the byte list if the prefix is not valid UTF-8, per the source's
inner `except`); with no zero byte present the literal byte-list form is
returned. -/
theorem read_value_byte_array_rendering (heap : List TypeInfoV) (mem : Mem)
    (addr eid : Nat) (an en : String) (asz n : Nat) (bs : List Nat)
    (helem : heapGet heap eid = some (.prim en 1))
    (hn : n ≤ 16)
    (hmem : mem addr n = .ok bs) :
    readValue heap mem addr (.arr an asz (some eid) n) =
      if bs.contains 0 then
        match utf8Decode (bs.takeWhile (fun b => b != 0)) with
        | some s => "\"" ++ s ++ "\""
        | none => pyList bs
      else pyList bs := by
  simp only [readValue]
  rw [if_neg (by omega : ¬ 16 < n)]
  simp only [helem, isPrim1, hmem, if_true]

theorem read_value_byte_array_rendering_witness :
    readValue c8Heap c8MemA 0 (.arr "buf" 4 (some 0) 4) = "\"AB\"" ∧
    readValue c8Heap c8MemB 0 (.arr "buf" 4 (some 0) 4) = "[65, 66, 67, 68]" :=
  ⟨(read_value_byte_array_rendering c8Heap c8MemA 0 0 "buf" "char" 4 4
      [65, 66, 0, 0] rfl (by decide) rfl).trans (by decide),
   (read_value_byte_array_rendering c8Heap c8MemB 0 0 "buf" "char" 4 4
      [65, 66, 67, 68] rfl (by decide) rfl).trans (by decide)⟩

theorem readValue_total_inline_error (heap : List TypeInfoV) (addr : Nat)
    (mem : Mem) (e : String) (hmem : ∀ a k, mem a k = .error e) :
    ∀ t : TypeInfoV, readValue heap mem addr t = "<Error: " ++ e ++ ">" ∨
      ∀ mem2 : Mem, readValue heap mem addr t = readValue heap mem2 addr t := by
  intro t
  cases t with
  | prim name size =>
    by_cases hsz : size = 0
    · right
      intro mem2
      simp [readValue, hsz]
    · left
      simp [readValue, hsz, hmem]
  | enumT name size mapping =>
    left
    simp [readValue, hmem]
  | ptr name size target =>
    left
    simp [readValue, hmem]
  | arr name size element count =>
    by_cases hc : 16 < count
    · right
      intro mem2
      simp [readValue, hc]
    · cases helem : (match element with | some tid => heapGet heap tid | none => none) with
      | none =>
        right
        intro mem2
        simp only [readValue, if_neg hc, helem]
      | some t0 =>
        by_cases hpr : isPrim1 t0 = true
        · left
          simp only [readValue, if_neg hc, helem, hpr, if_true, hmem]
        · right
          intro mem2
          simp only [readValue, if_neg hc, helem, hpr, Bool.false_eq_true, if_false]
  | struct name size members =>
    right
    intro mem2
    simp [readValue]

/-- C6: `read_value` is total (it returns a `String` for every address,
type and memory capability — the model has no escaping exception channel),
a failing read of a nonzero-size primitive renders exactly the inline
`"<Error: <msg>>"` marker, and in a structure dump a read failure on one
member is scoped to that member's line: the sibling member's line carries
exactly the scalar `read_value` rendering it would get on its own (here for
a two-member struct of primitives, arbitrary names, offsets, sizes and
memory). -/
theorem read_value_error_isolated_to_member (fuel : Nat) (heap : List TypeInfoV)
    (mem : Mem) (info : SymbolInfoM) (addr indent o1 o2 t1 t2 s1 s2 : Nat)
    (n1 n2 e : String)
    (h1 : heapGet heap t1 = some (.prim n1 s1))
    (h2 : heapGet heap t2 = some (.prim n2 s2))
    (hn1 : n1 ≠ "smf_ctx") (hn2 : n2 ≠ "smf_ctx")
    (hs1 : s1 ≠ 0)
    (hmem : mem (addr + o1) s1 = .error e) :
    (∀ (memF : Mem) (eF : String), (∀ a k, memF a k = .error eF) →
      ∀ t : TypeInfoV, readValue heap memF addr t = "<Error: " ++ eF ++ ">" ∨
        ∀ mem2 : Mem, readValue heap memF addr t = readValue heap mem2 addr t) ∧
    readValue heap mem (addr + o1) (.prim n1 s1) = "<Error: " ++ e ++ ">" ∧
    printStructLines (fuel + 1) heap mem info addr [⟨n1, o1, t1⟩, ⟨n2, o2, t2⟩] indent =
      [spaces indent ++ padRight n1 (maxNameLen [⟨n1, o1, t1⟩, ⟨n2, o2, t2⟩]) ++ " : " ++
         ("<Error: " ++ e ++ ">"),
       spaces indent ++ padRight n2 (maxNameLen [⟨n1, o1, t1⟩, ⟨n2, o2, t2⟩]) ++ " : " ++
         readValue heap mem (addr + o2) (.prim n2 s2)] := by
  have hv1 : readValue heap mem (addr + o1) (.prim n1 s1) = "<Error: " ++ e ++ ">" := by
    simp only [readValue, hmem, if_neg hs1]
  refine ⟨fun memF eF hF => readValue_total_inline_error heap addr memF eF hF, hv1, ?_⟩
  rw [printStructLines_succ]
  simp only [List.isEmpty_cons, Bool.false_eq_true, if_false, printMembers,
    readValueId, h1, h2, nodeName, hv1, List.append_nil, if_neg hn1, if_neg hn2,
    List.cons_append, List.nil_append]

theorem read_value_error_isolated_to_member_witness :
    printStructLines 1 c6Heap c6Mem {} 10 [⟨"aa", 0, 0⟩, ⟨"b", 4, 1⟩] 0 =
      ["aa : <Error: boom>", "b  : 5 (0x5)"] :=
  ((read_value_error_isolated_to_member 0 c6Heap c6Mem {} 10 0 0 4 0 1 4 4
      "aa" "b" "boom" rfl rfl (by decide) (by decide) (by decide) rfl).2.2).trans
    (by decide)

/-- C5 (counterexample): in `c5Dwarf` the `Main` module's symbols resolve
fine on their own (the state variable is located at `0x20000000` with its
type resolved), yet because `Cloud`'s root type reference is dangling, the
single `except` around the whole module loop of `analyze_elf` discards the
entire lookup: `analyze_elf` returns the empty map, omitting `Main` too —
refuting "only that module is omitted". -/
theorem analyze_elf_drops_all_modules :
    getSymbolInfo 2 c5Dwarf
        ⟨"Main", "main.c", "main", "main_state", "states", some "state"⟩ =
      .ok { stateVarAddr := some 536870912, stateVarType := some 0,
            typeHeap := [.prim "int" 4] } ∧
    getSymbolInfo 2 c5Dwarf cloudConfig = .error (.dieNotFound 999) ∧
    analyzeElf 2 c5Dwarf MODULES = [] := by
  exact ⟨rfl, rfl, rfl⟩

/-- C5 (amended): when resolving any one module's root type fails with a
type-resolution error, `analyze_elf` catches it at the top level and
returns an empty lookup — the failure is not an uncaught crash, but every
module is omitted from the result, including modules whose symbols were or
would be successfully located. -/
theorem analyze_elf_empty_on_module_failure (fuel : Nat) (d : Dwarf)
    (mods : List ModuleConfig) (m : ModuleConfig) (hm : m ∈ mods) (e : PErr)
    (he : getSymbolInfo fuel d m = .error e) :
    analyzeElf fuel d mods = [] := by
  have haux : ∀ ms : List ModuleConfig, m ∈ ms →
      ∀ acc, ∃ e2, analyzeLoop fuel d ms acc = .error e2 := by
    intro ms
    induction ms with
    | nil => intro h; cases h
    | cons m0 rest ih =>
      intro h acc
      cases hg : getSymbolInfo fuel d m0 with
      | error e0 => exact ⟨e0, by simp [analyzeLoop, hg]⟩
      | ok info =>
        rcases List.mem_cons.mp h with h0 | h1
        · rw [h0] at he
          rw [he] at hg
          cases hg
        · obtain ⟨e2, h2⟩ :=
            ih h1 (if info.stateVarAddr = none then acc else acc ++ [(m0.name, info)])
          exact ⟨e2, by simp only [analyzeLoop, hg]; exact h2⟩
  obtain ⟨e2, h2⟩ := haux mods hm []
  simp [analyzeElf, h2]

theorem analyze_elf_empty_on_module_failure_witness :
    analyzeElf 2 c5Dwarf MODULES = [] :=
  analyze_elf_empty_on_module_failure 2 c5Dwarf MODULES cloudConfig (by decide)
    (.dieNotFound 999) rfl

end StateInspector
